import Mathlib

/-!
Shallow embedding of the knuu `pkg/k8s` pod client (src/pkg/k8s/pod.go and
src/pkg/k8s/errors.go): manifest building with the init-container data-seeding
protocol, pod lifecycle (deploy / replace / delete / is-running), exec-session
classification, and the port-forward readiness race.  Pure functions from the
source become Lean functions; the orchestration platform (an external
collaborator consumed through the client-go interface) is modelled as an
explicit cluster state, and stateful operations emit a trace of remote calls.
-/

namespace Knuu

/-! ### Go standard library path helpers (path/filepath, Unix rules)

`buildInitContainerCommand` uses `filepath.Dir` and `filepath.Join`; both are
defined in terms of `path.Clean`.  `pathClean` is a functional rendering of
Go's `Clean` lazybuf algorithm: split on `/`, drop empty and `.` components,
resolve `..` against a stack (dropping it at the root, keeping it when the
path is relative and the stack is exhausted). -/

def cleanStep (rooted : Bool) (stack : List String) (c : String) : List String :=
  if c = "" ∨ c = "." then stack
  else if c = ".." then
    match stack with
    | [] => if rooted then [] else [".."]
    | top :: rest => if top = ".." then ".." :: top :: rest else rest
  else c :: stack

def pathClean (p : String) : String :=
  if p = "" then "."
  else
    let rooted := p.startsWith "/"
    let comps := (p.splitOn "/").foldl (cleanStep rooted) []
    let joined := String.intercalate "/" comps.reverse
    if rooted then "/" ++ joined
    else if joined = "" then "." else joined

/-- Go `filepath.Dir` (Unix): drop the final non-separator run, `Clean` the rest;
a path with no separator yields `Clean "" = "."`. -/
def pathDir (p : String) : String :=
  pathClean (String.mk ((p.data.reverse.dropWhile fun c => c ≠ '/').reverse))

/-- Go `filepath.Join` restricted to two elements (the only use in the source):
empty elements are skipped, the rest are joined with `/` and cleaned. -/
def pathJoin2 (a b : String) : String :=
  if a = "" then (if b = "" then "" else pathClean b)
  else pathClean (a ++ "/" ++ b)

/-- Go `strings.TrimLeft(s, "/")`: remove every leading `/`. -/
def trimLeftSlash (s : String) : String :=
  String.mk (s.data.dropWhile fun c => c = '/')

/-! ### Data model (src/pkg/k8s/pod.go lines 25-76) -/

/-- knuuPath is the path where the knuu volume is mounted. -/
def knuuPath : String := "/knuu"

def podFilesConfigmapNameSuffix : String := "-config"

def initContainerNameSuffix : String := "-init"

def defaultContainerUser : Int := 0

structure Volume where
  Path : String
  Size : Nat
  Owner : Int
deriving DecidableEq

structure File where
  Source : String
  Dest : String
deriving DecidableEq

/-- The fields of `v1.VolumeMount` that the source sets. -/
structure VolumeMount where
  Name : String
  MountPath : String
  SubPath : String
deriving DecidableEq

/-- The fields of `v1.Container` that the claims depend on. -/
structure Container where
  Name : String
  Image : String
  Command : List String
  VolumeMounts : List VolumeMount
  RunAsUser : Option Int
deriving DecidableEq

/-- The seeding-relevant fields of `ContainerConfig`. -/
structure ContainerConfig where
  Name : String
  Image : String
  Command : List String
  Volumes : List Volume
  Files : List File
deriving DecidableEq

structure PodConfig where
  Namespace : String
  Name : String
  ContainerConfig : Knuu.ContainerConfig
  SidecarConfigs : List Knuu.ContainerConfig
deriving DecidableEq

structure ContainerStatus where
  Ready : Bool
deriving DecidableEq

structure PodStatus where
  ContainerStatuses : List ContainerStatus
deriving DecidableEq

/-! ### Manifest builder: container mounts (pod.go lines 403-462) -/

/-- Go `strings.HasPrefix(s, p)`: `p` is a leading substring of `s`. -/
def hasPrefixGo (p s : String) : Bool :=
  p.data.isPrefixOf s.data

/-- The `shouldAddFile` loop condition in `buildContainerVolumes`: the file is
covered when its destination has some declared volume's mount path as a
string prefix (`strings.HasPrefix(file.Dest, volume.Path)`). -/
def coveredB (volumes : List Volume) (dest : String) : Bool :=
  volumes.any fun volume => hasPrefixGo volume.Path dest

/-- The configmap-backed file mount entry built for the file at ordinal `n`. -/
def fileMount (name : String) (n : Nat) (file : File) : VolumeMount :=
  { Name := name ++ podFilesConfigmapNameSuffix
    MountPath := file.Dest
    SubPath := toString n }

/-- The `containerFiles` loop of `buildContainerVolumes`: `n` is the running
index of the `for n, file := range files` loop. -/
def containerFileMounts (name : String) (volumes : List Volume) :
    Nat → List File → List VolumeMount
  | _, [] => []
  | n, file :: rest =>
    if coveredB volumes file.Dest then containerFileMounts name volumes (n + 1) rest
    else fileMount name n file :: containerFileMounts name volumes (n + 1) rest

/-- pod.go `buildContainerVolumes`: one mount per volume at its declared path
(sub-path: the path with leading slashes trimmed), then one mount per file not
covered by a volume (sub-path: the file's ordinal index). -/
def buildContainerVolumes (name : String) (volumes : List Volume) (files : List File) :
    List VolumeMount :=
  (volumes.map fun volume =>
    { Name := name
      MountPath := volume.Path
      SubPath := trimLeftSlash volume.Path : VolumeMount })
  ++ containerFileMounts name volumes 0 files

/-- The `containerFiles` loop of `buildInitContainerVolumes`: every file is
mounted, keyed by its ordinal index. -/
def initFileMounts (name : String) : Nat → List File → List VolumeMount
  | _, [] => []
  | n, file :: rest => fileMount name n file :: initFileMounts name (n + 1) rest

/-- pod.go `buildInitContainerVolumes`: empty when there is nothing to seed;
otherwise a single mount at the fixed staging root `/knuu` plus one mount per
file keyed by its ordinal index (the `v1.VolumeMount` zero value leaves the
sub-path empty for the staging-root mount). -/
def buildInitContainerVolumes (name : String) (volumes : List Volume) (files : List File) :
    List VolumeMount :=
  if volumes.length = 0 ∧ files.length = 0 then []
  else
    { Name := name, MountPath := knuuPath, SubPath := "" : VolumeMount }
      :: initFileMounts name 0 files

/-! ### Data-seeding planner: the staging command (pod.go lines 464-509) -/

/-- The `baseCmd` string in `buildInitContainerCommand`. -/
def baseCmd : String := "set -xe && "

/-- The `createKnuuPath` string in `buildInitContainerCommand`. -/
def createKnuuPath : String := "mkdir -p " ++ knuuPath ++ " && "

/-- The `parentDirCmd` string in the file loop of `buildInitContainerCommand`: create the
mirror of `folder` under the staging root. -/
def parentDirCmd (folder : String) : String :=
  "mkdir -p " ++ (knuuPath ++ folder) ++ " && "

/-- The `copyFileToKnuu` string in the file loop: copy the file from its destination into
the corresponding staging-root path. -/
def copyFileCmd (file : File) : String :=
  "cp " ++ file.Dest ++ " " ++ pathJoin2 knuuPath file.Dest ++ " && "

/-- The file loop of `buildInitContainerCommand`: for each file, emit the
parent-directory creation if that directory was not processed yet (the
`dirsProcessed` set), then the copy command. -/
def fileCmds (dirsProcessed : List String) : List File → List String
  | [] => []
  | file :: rest =>
    let folder := pathDir file.Dest
    if folder ∈ dirsProcessed then
      copyFileCmd file :: fileCmds dirsProcessed rest
    else
      parentDirCmd folder :: copyFileCmd file :: fileCmds (dirsProcessed ++ [folder]) rest

/-- The per-volume command of `buildInitContainerCommand`: if the volume's
destination directory exists and is non-empty, mirror it under the staging
root, copy recursively and chown to the declared owner; `isLast` selects the
terminator (`" ;fi"` for the last volume, `" ;fi && "` otherwise). -/
def volumeCmd (volume : Volume) (isLast : Bool) : String :=
  let knuuVolumePath := knuuPath ++ volume.Path
  let cmd := "if [ -d " ++ volume.Path ++ " ] && [ \"$(ls -A " ++ volume.Path
    ++ ")\" ]; then mkdir -p " ++ knuuVolumePath ++ " && cp -r " ++ volume.Path
    ++ "/* " ++ knuuVolumePath ++ " && chown -R " ++ toString volume.Owner
    ++ ":" ++ toString volume.Owner ++ " " ++ knuuVolumePath
  if isLast then cmd ++ " ;fi" else cmd ++ " ;fi && "

/-- The volume loop of `buildInitContainerCommand` (`i < len(volumes)-1`
selects the non-final terminator). -/
def volumeCmds : List Volume → List String
  | [] => []
  | [volume] => [volumeCmd volume true]
  | volume :: next :: rest => volumeCmd volume false :: volumeCmds (next :: rest)

/-- The full `cmds` slice accumulated by `buildInitContainerCommand` before it
is joined into one string. -/
def initCmdList (volumes : List Volume) (files : List File) : List String :=
  [baseCmd, createKnuuPath] ++ fileCmds [] files ++ volumeCmds volumes

/-- pod.go `buildInitContainerCommand`: a single `sh -c` invocation around the
concatenation of the accumulated commands. -/
def buildInitContainerCommand (volumes : List Volume) (files : List File) : List String :=
  ["sh", "-c", String.join (initCmdList volumes files)]

/-! ### Manifest assembly (pod.go lines 524-603) -/

/-- pod.go `prepareContainer` (fields not involved in the claims elided). -/
def prepareContainer (config : ContainerConfig) : Container :=
  { Name := config.Name
    Image := config.Image
    Command := config.Command
    VolumeMounts := buildContainerVolumes config.Name config.Volumes config.Files
    RunAsUser := none }

/-- pod.go `prepareInitContainers`: no staging container unless seeding was
requested and at least one volume is declared. -/
def prepareInitContainers (config : ContainerConfig) (init : Bool) : List Container :=
  if ¬ init ∨ config.Volumes.length = 0 then []
  else
    [{ Name := config.Name ++ initContainerNameSuffix
       Image := config.Image
       Command := buildInitContainerCommand config.Volumes config.Files
       VolumeMounts := buildInitContainerVolumes config.Name config.Volumes config.Files
       RunAsUser := some defaultContainerUser }]

structure PodSpec where
  InitContainers : List Container
  Containers : List Container
deriving DecidableEq

/-- pod.go `preparePodSpec`: the staging containers, the primary container,
then the sidecar containers in order (pod-level volumes elided). -/
def preparePodSpec (spec : PodConfig) (init : Bool) : PodSpec :=
  { InitContainers := prepareInitContainers spec.ContainerConfig init
    Containers :=
      prepareContainer spec.ContainerConfig :: spec.SidecarConfigs.map prepareContainer }

structure Pod where
  Namespace : String
  Name : String
  Spec : PodSpec
  Status : PodStatus
deriving DecidableEq

/-- pod.go `preparePod`: a freshly built pod carries no status yet. -/
def preparePod (spec : PodConfig) (init : Bool) : Pod :=
  { Namespace := spec.Namespace
    Name := spec.Name
    Spec := preparePodSpec spec init
    Status := { ContainerStatuses := [] } }

/-! ### String facts used by the mount and command proofs -/

theorem string_data_append (a b : String) : (a ++ b).data = a.data ++ b.data := rfl

theorem head_of_append (s t : String) (c : Char) (h : s.data.head? = some c) :
    (s ++ t).data.head? = some c := by
  rw [string_data_append, List.head?_append, h]
  rfl

theorem string_ne_of_head {a b : String} {c1 c2 : Char} (h1 : a.data.head? = some c1)
    (h2 : b.data.head? = some c2) (hne : c1 ≠ c2) : a ≠ b := by
  intro he
  subst he
  rw [h1] at h2
  exact hne (Option.some.inj h2)

theorem self_ne_append_of_ne_empty (s t : String) (ht : t ≠ "") : s ≠ s ++ t := by
  intro h
  have hlen := congrArg String.length h
  rw [String.length_append] at hlen
  have : t.length = 0 := by omega
  exact ht (String.ext (List.eq_nil_of_length_eq_zero this))

theorem string_join_cons (s : String) (l : List String) :
    String.join (s :: l) = s ++ String.join l := by
  have key : ∀ (l : List String) (a : String),
      List.foldl (fun r t => r ++ t) a l = a ++ List.foldl (fun r t => r ++ t) "" l := by
    intro l
    induction l with
    | nil => intro a; apply String.ext; simp [string_data_append]
    | cons x xs ih =>
      intro a
      show List.foldl _ (a ++ x) xs = a ++ List.foldl _ ("" ++ x) xs
      rw [ih (a ++ x), ih ("" ++ x)]
      apply String.ext
      simp [string_data_append]
  show List.foldl (fun r t => r ++ t) ("" ++ s) l = s ++ List.foldl (fun r t => r ++ t) "" l
  rw [key l ("" ++ s)]
  apply String.ext
  simp [string_data_append]

/-! ### C1: volume mounts supersede covered files; staging mounts keep all files -/

theorem mem_initFileMounts (name : String) (files : List File) :
    ∀ (n i : Nat) (f : File), files.get? i = some f →
      fileMount name (n + i) f ∈ initFileMounts name n files := by
  induction files with
  | nil => intro n i f h; simp [List.get?] at h
  | cons g rest ih =>
    intro n i f h
    cases i with
    | zero =>
      have hg : g = f := by simpa [List.get?] using h
      subst hg
      simp [initFileMounts]
    | succ j =>
      have hj : rest.get? j = some f := by simpa [List.get?] using h
      have := ih (n + 1) j f hj
      have harith : n + 1 + j = n + (j + 1) := by omega
      rw [harith] at this
      simp [initFileMounts, this]

theorem mem_containerFileMounts (name : String) (volumes : List Volume) :
    ∀ (n : Nat) (files : List File) (m : VolumeMount),
      m ∈ containerFileMounts name volumes n files →
      ∃ k g, m = fileMount name k g ∧ coveredB volumes g.Dest = false := by
  intro n files
  induction files generalizing n with
  | nil => intro m h; simp [containerFileMounts] at h
  | cons g rest ih =>
    intro m h
    simp only [containerFileMounts] at h
    by_cases hc : coveredB volumes g.Dest
    · rw [if_pos hc] at h
      exact ih (n + 1) m h
    · rw [if_neg hc] at h
      rcases List.mem_cons.mp h with he | hm
      · exact ⟨n, g, he, by simpa using hc⟩
      · exact ih (n + 1) m hm

/-- C1: a file whose destination sits under a declared volume's mount path
(string-prefix match) is omitted from the main container's mount list, while
every file appears in the staging (init) container's mount list with sub-path
equal to its ordinal index in the file list. -/
theorem C1_volume_supersedes (name : String) (volumes : List Volume) (files : List File)
    (i : Nat) (f : File) (hif : files.get? i = some f) :
    (coveredB volumes f.Dest = true →
        fileMount name i f ∉ buildContainerVolumes name volumes files)
    ∧ fileMount name i f ∈ buildInitContainerVolumes name volumes files := by
  constructor
  · intro hcov hmem
    simp only [buildContainerVolumes, List.mem_append] at hmem
    rcases hmem with hm | hm
    · rcases List.mem_map.mp hm with ⟨v, _, hv⟩
      have hname := congrArg VolumeMount.Name hv
      simp only [fileMount] at hname
      exact self_ne_append_of_ne_empty name podFilesConfigmapNameSuffix (by decide) hname
    · rcases mem_containerFileMounts name volumes 0 files (fileMount name i f) hm
        with ⟨k, g, heq, hgcov⟩
      have hdest := congrArg VolumeMount.MountPath heq
      simp only [fileMount] at hdest
      rw [show f.Dest = g.Dest from hdest] at hcov
      rw [hcov] at hgcov
      exact absurd hgcov (by decide)
  · have hne : files ≠ [] := by
      intro he
      subst he
      simp [List.get?] at hif
    have hguard : ¬(volumes.length = 0 ∧ files.length = 0) := by
      rintro ⟨_, h2⟩
      exact hne (List.eq_nil_of_length_eq_zero h2)
    have hmem := mem_initFileMounts name files 0 i f hif
    rw [Nat.zero_add] at hmem
    simp only [buildInitContainerVolumes, if_neg hguard]
    exact List.mem_cons_of_mem _ hmem

theorem C1_volume_supersedes_witness :
    (fileMount "app" 0 ⟨"/tmp/cfg.toml", "/data/cfg.toml"⟩ ∉
        buildContainerVolumes "app" [⟨"/data", 1, 1000⟩] [⟨"/tmp/cfg.toml", "/data/cfg.toml"⟩])
    ∧ fileMount "app" 0 ⟨"/tmp/cfg.toml", "/data/cfg.toml"⟩ ∈
        buildInitContainerVolumes "app" [⟨"/data", 1, 1000⟩] [⟨"/tmp/cfg.toml", "/data/cfg.toml"⟩] := by
  have h := C1_volume_supersedes "app" [⟨"/data", 1, 1000⟩] [⟨"/tmp/cfg.toml", "/data/cfg.toml"⟩]
    0 ⟨"/tmp/cfg.toml", "/data/cfg.toml"⟩ rfl
  exact ⟨h.1 (by decide), h.2⟩

/-! ### C2: the staging stage exists iff seeding is requested and a volume is declared -/

/-- C2: the generated pod spec contains an init container iff the seeding flag
is set and the primary container declares at least one volume; with zero
volumes and zero files the staging stage is absent and the main container's
mount list is empty. -/
theorem C2_staging_iff (cfg : PodConfig) (init : Bool) :
    ((preparePodSpec cfg init).InitContainers ≠ [] ↔
        init = true ∧ cfg.ContainerConfig.Volumes ≠ [])
    ∧ (cfg.ContainerConfig.Volumes = [] → cfg.ContainerConfig.Files = [] →
        (preparePodSpec cfg init).InitContainers = []
        ∧ (preparePodSpec cfg init).Containers.head?.map Container.VolumeMounts = some []) := by
  constructor
  · simp only [preparePodSpec, prepareInitContainers]
    cases init with
    | false => simp
    | true =>
      by_cases hvol : cfg.ContainerConfig.Volumes = []
      · simp [hvol]
      · rw [if_neg ?_]
        · simp [hvol]
        · rintro (h | h)
          · exact h rfl
          · exact hvol (List.eq_nil_of_length_eq_zero h)
  · intro hvol hfile
    refine ⟨?_, ?_⟩
    · simp [preparePodSpec, prepareInitContainers, hvol]
    · simp [preparePodSpec, prepareContainer, buildContainerVolumes, hvol, hfile,
        containerFileMounts]

theorem C2_staging_iff_witness :
    ((preparePodSpec ⟨"ns", "empty", ⟨"main", "img", [], [], []⟩, []⟩ true).InitContainers ≠ [] ↔
        true = true ∧ ([] : List Volume) ≠ [])
    ∧ (([] : List Volume) = [] → ([] : List File) = [] →
        (preparePodSpec ⟨"ns", "empty", ⟨"main", "img", [], [], []⟩, []⟩ true).InitContainers = []
        ∧ (preparePodSpec ⟨"ns", "empty", ⟨"main", "img", [], [], []⟩, []⟩
            true).Containers.head?.map Container.VolumeMounts = some []) :=
  C2_staging_iff ⟨"ns", "empty", ⟨"main", "img", [], [], []⟩, []⟩ true

/-! ### C3: structure of the staging command -/

theorem string_slash_append_ne_empty (s : String) : "/" ++ s ≠ "" := by
  intro h
  have hlen := congrArg String.length h
  rw [String.length_append] at hlen
  have h1 : ("/" : String).length = 1 := rfl
  have h0 : ("" : String).length = 0 := rfl
  omega

theorem pathClean_ne_empty (p : String) : pathClean p ≠ "" := by
  unfold pathClean
  by_cases hp : p = ""
  · simp [hp]
  · rw [if_neg hp]
    dsimp only
    split
    · exact string_slash_append_ne_empty _
    · split
      · decide
      · assumption

theorem pathDir_ne_empty (p : String) : pathDir p ≠ "" :=
  pathClean_ne_empty _

theorem parentDirCmd_head (folder : String) :
    (parentDirCmd folder).data.head? = some 'm' := by
  unfold parentDirCmd
  exact head_of_append _ _ _ (head_of_append _ _ _ rfl)

theorem copyFileCmd_head (file : File) :
    (copyFileCmd file).data.head? = some 'c' := by
  unfold copyFileCmd
  exact head_of_append _ _ _ (head_of_append _ _ _ (head_of_append _ _ _
    (head_of_append _ _ _ rfl)))

theorem volumeCmd_head (volume : Volume) (b : Bool) :
    (volumeCmd volume b).data.head? = some 'i' := by
  unfold volumeCmd
  dsimp only
  split <;> (repeat first | exact rfl | apply head_of_append)

theorem parentDirCmd_ne_baseCmd (d : String) : parentDirCmd d ≠ baseCmd :=
  string_ne_of_head (parentDirCmd_head d) (show baseCmd.data.head? = some 's' from rfl)
    (by decide)

theorem parentDirCmd_ne_copyFileCmd (d : String) (f : File) :
    parentDirCmd d ≠ copyFileCmd f :=
  string_ne_of_head (parentDirCmd_head d) (copyFileCmd_head f) (by decide)

theorem parentDirCmd_ne_volumeCmd (d : String) (v : Volume) (b : Bool) :
    parentDirCmd d ≠ volumeCmd v b :=
  string_ne_of_head (parentDirCmd_head d) (volumeCmd_head v b) (by decide)

theorem parentDirCmd_ne_createKnuuPath {d : String} (hd : d ≠ "") :
    parentDirCmd d ≠ createKnuuPath := by
  intro he
  apply hd
  have hdata := congrArg String.data he
  simp only [parentDirCmd, createKnuuPath, string_data_append, List.append_assoc] at hdata
  have h1 := List.append_cancel_left (List.append_cancel_left hdata)
  have h2 : d.data ++ " && ".data = ([] : List Char) ++ " && ".data := by
    rw [List.nil_append]; exact h1
  exact String.ext (List.append_cancel_right h2)

theorem parentDirCmd_inj {d1 d2 : String} (h : parentDirCmd d1 = parentDirCmd d2) :
    d1 = d2 := by
  have hdata := congrArg String.data h
  simp only [parentDirCmd, string_data_append, List.append_assoc] at hdata
  have h1 := List.append_cancel_left (List.append_cancel_left hdata)
  exact String.ext (List.append_cancel_right h1)

theorem count_fileCmds_of_processed (d : String) :
    ∀ (dp : List String) (files : List File), d ∈ dp →
      (fileCmds dp files).count (parentDirCmd d) = 0 := by
  intro dp files
  induction files generalizing dp with
  | nil => intro _; simp [fileCmds]
  | cons f rest ih =>
    intro hd
    simp only [fileCmds]
    by_cases hf : pathDir f.Dest ∈ dp
    · rw [if_pos hf, List.count_cons, ih dp hd]
      simp [beq_eq_false_iff_ne.mpr (Ne.symm (parentDirCmd_ne_copyFileCmd d f))]
    · have hfd : pathDir f.Dest ≠ d := fun he => hf (he ▸ hd)
      rw [if_neg hf, List.count_cons, List.count_cons,
        ih (dp ++ [pathDir f.Dest]) (List.mem_append_left _ hd)]
      simp [beq_eq_false_iff_ne.mpr (Ne.symm (parentDirCmd_ne_copyFileCmd d f)),
        beq_eq_false_iff_ne.mpr (fun he => hfd (parentDirCmd_inj he))]

theorem count_fileCmds_of_mem (d : String) :
    ∀ (dp : List String) (files : List File), d ∉ dp →
      d ∈ (files.map fun f => pathDir f.Dest) →
      (fileCmds dp files).count (parentDirCmd d) = 1 := by
  intro dp files
  induction files generalizing dp with
  | nil => intro _ hmem; simp at hmem
  | cons f rest ih =>
    intro hnd hmem
    simp only [fileCmds]
    by_cases hf : pathDir f.Dest ∈ dp
    · have hdf : d ≠ pathDir f.Dest := fun he => hnd (he ▸ hf)
      have hmem' : d ∈ rest.map fun g => pathDir g.Dest := by
        rcases List.mem_map.mp hmem with ⟨g, hg, hgd⟩
        rcases List.mem_cons.mp hg with he | hgr
        · exact absurd (he ▸ hgd).symm hdf
        · exact List.mem_map.mpr ⟨g, hgr, hgd⟩
      rw [if_pos hf, List.count_cons, ih dp hnd hmem']
      simp [beq_eq_false_iff_ne.mpr (Ne.symm (parentDirCmd_ne_copyFileCmd d f))]
    · rw [if_neg hf, List.count_cons, List.count_cons]
      by_cases hdf : d = pathDir f.Dest
      · rw [count_fileCmds_of_processed d (dp ++ [pathDir f.Dest]) rest
          (by rw [hdf]; exact List.mem_append_right _ (by simp))]
        simp [beq_eq_false_iff_ne.mpr (Ne.symm (parentDirCmd_ne_copyFileCmd d f)),
          hdf.symm]
      · have hmem' : d ∈ rest.map fun g => pathDir g.Dest := by
          rcases List.mem_map.mp hmem with ⟨g, hg, hgd⟩
          rcases List.mem_cons.mp hg with he | hgr
          · exact absurd (by rw [← hgd, he]) hdf
          · exact List.mem_map.mpr ⟨g, hgr, hgd⟩
        have hnd' : d ∉ dp ++ [pathDir f.Dest] := by
          intro hmm
          rcases List.mem_append.mp hmm with h | h
          · exact hnd h
          · exact hdf (by simpa using h)
        rw [ih (dp ++ [pathDir f.Dest]) hnd' hmem']
        simp [beq_eq_false_iff_ne.mpr (Ne.symm (parentDirCmd_ne_copyFileCmd d f)),
          beq_eq_false_iff_ne.mpr (fun he => hdf (parentDirCmd_inj he).symm)]

theorem mem_volumeCmds : ∀ (l : List Volume), ∀ s ∈ volumeCmds l, ∃ v b, s = volumeCmd v b := by
  intro l
  induction l with
  | nil => intro s hs; simp [volumeCmds] at hs
  | cons v rest ih =>
    intro s hs
    cases rest with
    | nil =>
      simp only [volumeCmds, List.mem_singleton] at hs
      exact ⟨v, true, hs⟩
    | cons w ws =>
      simp only [volumeCmds] at hs
      rcases List.mem_cons.mp hs with he | hs'
      · exact ⟨v, false, he⟩
      · exact ih s hs'

theorem copyFileCmd_mem_fileCmds (f : File) :
    ∀ (dp : List String) (files : List File), f ∈ files →
      copyFileCmd f ∈ fileCmds dp files := by
  intro dp files
  induction files generalizing dp with
  | nil => intro h; simp at h
  | cons g rest ih =>
    intro hf
    simp only [fileCmds]
    rcases List.mem_cons.mp hf with he | hr
    · subst he
      split
      · exact List.mem_cons_self _ _
      · exact List.mem_cons_of_mem _ (List.mem_cons_self _ _)
    · split
      · exact List.mem_cons_of_mem _ (ih dp hr)
      · exact List.mem_cons_of_mem _ (List.mem_cons_of_mem _ (ih _ hr))

/-- C3: the staging command is a single `sh -c` invocation whose script starts
by enabling fail-fast/trace mode and creating the staging root; in the command
sequence, the parent-directory creation for each file's destination directory
appears exactly once (even when several files share one directory), and each
file is copied from its destination path to the corresponding staging-root
path. -/
theorem C3_staging_command (volumes : List Volume) (files : List File) :
    (∃ rest : String,
        buildInitContainerCommand volumes files
          = ["sh", "-c", "set -xe && mkdir -p /knuu && " ++ rest])
    ∧ (∀ f ∈ files,
        (initCmdList volumes files).count (parentDirCmd (pathDir f.Dest)) = 1)
    ∧ ∀ f ∈ files, copyFileCmd f ∈ initCmdList volumes files := by
  refine ⟨⟨String.join (fileCmds [] files ++ volumeCmds volumes), ?_⟩, ?_, ?_⟩
  · unfold buildInitContainerCommand initCmdList
    have hsplit : [baseCmd, createKnuuPath] ++ fileCmds [] files ++ volumeCmds volumes
        = baseCmd :: createKnuuPath :: (fileCmds [] files ++ volumeCmds volumes) := rfl
    rw [hsplit, string_join_cons, string_join_cons]
    have hjoin : baseCmd ++ (createKnuuPath ++ String.join (fileCmds [] files ++ volumeCmds volumes))
        = "set -xe && mkdir -p /knuu && " ++ String.join (fileCmds [] files ++ volumeCmds volumes) := by
      apply String.ext
      simp only [string_data_append]
      rw [← List.append_assoc]
      congr 1
    rw [hjoin]
  · intro f hf
    unfold initCmdList
    rw [List.count_append, List.count_append]
    have hd := pathDir_ne_empty f.Dest
    have hbase : ([baseCmd, createKnuuPath] : List String).count
        (parentDirCmd (pathDir f.Dest)) = 0 := by
      rw [List.count_cons, List.count_cons, List.count_nil]
      simp [beq_eq_false_iff_ne.mpr (Ne.symm (parentDirCmd_ne_baseCmd _)),
        beq_eq_false_iff_ne.mpr (Ne.symm (parentDirCmd_ne_createKnuuPath hd))]
    have hfiles : (fileCmds [] files).count (parentDirCmd (pathDir f.Dest)) = 1 :=
      count_fileCmds_of_mem _ [] files (by simp) (List.mem_map.mpr ⟨f, hf, rfl⟩)
    have hvols : (volumeCmds volumes).count (parentDirCmd (pathDir f.Dest)) = 0 := by
      rw [List.count_eq_zero]
      intro hmm
      rcases mem_volumeCmds volumes _ hmm with ⟨v, b, hvb⟩
      exact parentDirCmd_ne_volumeCmd _ v b hvb
    rw [hbase, hfiles, hvols]
  · intro f hf
    unfold initCmdList
    exact List.mem_append_left _
      (List.mem_append_right _ (copyFileCmd_mem_fileCmds f [] files hf))

theorem C3_staging_command_witness :
    (initCmdList [⟨"/data", 1, 1000⟩]
        [⟨"/tmp/a", "/data/a.toml"⟩, ⟨"/tmp/b", "/data/b.toml"⟩]).count
      (parentDirCmd (pathDir "/data/a.toml")) = 1 :=
  (C3_staging_command [⟨"/data", 1, 1000⟩]
      [⟨"/tmp/a", "/data/a.toml"⟩, ⟨"/tmp/b", "/data/b.toml"⟩]).2.1
    ⟨"/tmp/a", "/data/a.toml"⟩ (by decide)

/-! ### Error model (src/pkg/k8s/errors.go)

`errors.Error` values carry a message with parameters and an optional wrapped
cause (`WithParams` / `Wrap`); only the errors reachable from the embedded
operations are represented.  `wrap e cause` is `e.Wrap(cause)`. -/

inductive KErr where
  | clientTerminated
  | notFound
  | alreadyExists
  | invalidPodName (name : String)
  | invalidContainerName (name : String)
  | emptyCommand
  | invalidPort (p : Int)
  | invalidPodConfig (name : String)
  | gettingPod (name : String)
  | creatingPod
  | deletingPod
  | deployingPod
  | waitingForPodDeletion (name : String)
  | executingCommand (stdout stderr : String)
  | commandExecution (stdout stderr : String)
  | forwardingPorts
  | portForwardingTimeout
  | contextCanceled
  | transport (msg : String)
  | wrap (err cause : KErr)
deriving DecidableEq

/-- Whether the terminated-client error appears anywhere in the wrap chain. -/
def KErr.containsTerminated : KErr → Bool
  | .clientTerminated => true
  | .wrap e cause => e.containsTerminated || cause.containsTerminated
  | _ => false

/-! ### Validation (modelled)

The validators live in a repository file that is not under src/ (only their
call sites in pod.go are shown), so they are modelled from the spec. -/

/-- Modelled from the spec: `validatePodName` / resource-naming grammar is not
under src/; the spec requires a non-empty name of lowercase alphanumerics and
dashes, of bounded length. -/
def validName (s : String) : Bool :=
  decide (s.length ≠ 0) && decide (s.length ≤ 253)
    && s.data.all fun c => c.isLower || c.isDigit || decide (c = '-')

/-- Modelled from the spec: `validatePodName` is not under src/. -/
def validatePodName (name : String) : Bool := validName name

/-- Modelled from the spec: `validateContainerName` is not under src/. -/
def validateContainerName (name : String) : Bool := validName name

/-- Modelled from the spec: `validateCommand` is not under src/; the spec
requires a non-empty command vector. -/
def validateCommand (cmd : List String) : Bool := !cmd.isEmpty

/-- Modelled from the spec: `validatePort` is not under src/; errors.go names
the valid range 1-65535. -/
def validatePort (p : Int) : Bool := decide (1 ≤ p) && decide (p ≤ 65535)

/-- Modelled from the spec: `validatePodConfig` is not under src/; the spec
requires name and namespace to satisfy the naming grammar. -/
def validatePodConfig (cfg : PodConfig) : Bool :=
  validName cfg.Name && validName cfg.Namespace

/-! ### The remote platform (external collaborator) and the client operations

The orchestration platform's store is modelled as the list of deployed pods;
each operation returns its result together with the trace of remote calls it
issued, so that guard properties ("fails before attempting any remote call")
and ordering properties are visible.  `terminated` is the client's
process-termination flag. -/

/-- A remote call against the platform API. -/
inductive Ev where
  | getPod (name : String)
  | deletePod (name : String)
  | createPod (name : String)
  | execStream (podName containerName : String)
  | portForwardStream (podName : String)
deriving DecidableEq

abbrev Cluster := List (String × Pod)

def clusterGet (cl : Cluster) (name : String) : Option Pod :=
  (cl.find? fun entry => entry.1 = name).map fun entry => entry.2

def clusterRemove (cl : Cluster) (name : String) : Cluster :=
  cl.filter fun entry => ¬ entry.1 = name

/-- pod.go `getPod`: fail with the terminated-client error before any remote
call; otherwise issue the platform Get, which reports not-found for an absent
pod. -/
def getPodOp (terminated : Bool) (cl : Cluster) (name : String) :
    Except KErr Pod × List Ev :=
  if terminated then (.error .clientTerminated, [])
  else
    match clusterGet cl name with
    | some pod => (.ok pod, [.getPod name])
    | none => (.error .notFound, [.getPod name])

/-- pod.go `IsPodRunning`: a fetch error is wrapped and surfaced; otherwise
the result is true iff every reported container status is ready. -/
def isPodRunning (terminated : Bool) (cl : Cluster) (name : String) :
    Except KErr Bool × List Ev :=
  match getPodOp terminated cl name with
  | (.error e, tr) => (.error (KErr.wrap (.gettingPod name) e), tr)
  | (.ok pod, tr) => (.ok (pod.Status.ContainerStatuses.all fun cs => cs.Ready), tr)

/-- pod.go `DeployPod`: terminated guard, validation, then the platform
create (which rejects an existing name with already-exists). -/
def deployPod (terminated : Bool) (cl : Cluster) (cfg : PodConfig) (init : Bool) :
    Except KErr Pod × Cluster × List Ev :=
  if terminated then (.error .clientTerminated, cl, [])
  else if ¬ validatePodConfig cfg then (.error (.invalidPodConfig cfg.Name), cl, [])
  else
    match clusterGet cl cfg.Name with
    | some _ => (.error (KErr.wrap .creatingPod .alreadyExists), cl, [.createPod cfg.Name])
    | none =>
      let pod := preparePod cfg init
      (.ok pod, (cfg.Name, pod) :: cl, [.createPod cfg.Name])

/-- pod.go `DeletePodWithGracePeriod`: a not-found pod is skipped without
error and without a remote delete; any other fetch error is returned as-is;
otherwise the platform delete is issued (always accepted in the model). -/
def deletePodWithGracePeriod (terminated : Bool) (cl : Cluster) (name : String) :
    Except KErr Unit × Cluster × List Ev :=
  match getPodOp terminated cl name with
  | (.error .notFound, tr) => (.ok (), cl, tr)
  | (.error e, tr) => (.error e, cl, tr)
  | (.ok _, tr) => (.ok (), clusterRemove cl name, tr ++ [.deletePod name])

/-- pod.go `waitForPodDeletion`: each tick re-fetches by name; not-found is
success, any other fetch error is wrapped and returned, an existing pod means
another tick.  The cluster is static in the model, so the loop is given fuel:
`none` means the loop was still polling when the fuel ran out. -/
def waitForPodDeletion (terminated : Bool) (cl : Cluster) (name : String) :
    Nat → Option (Except KErr Unit) × List Ev
  | 0 => (none, [])
  | fuel + 1 =>
    match getPodOp terminated cl name with
    | (.error .notFound, tr) => (some (.ok ()), tr)
    | (.error e, tr) => (some (.error (KErr.wrap (.waitingForPodDeletion name) e)), tr)
    | (.ok _, tr) =>
      let (res, tr2) := waitForPodDeletion terminated cl name fuel
      (res, tr ++ tr2)

/-- pod.go `ReplacePodWithGracePeriod`: delete (absence is no error), await
absence, then deploy fresh with the seeding flag hard-coded to false. -/
def replacePodWithGracePeriod (terminated : Bool) (cl : Cluster) (cfg : PodConfig)
    (fuel : Nat) : Option (Except KErr Pod) × Cluster × List Ev :=
  match deletePodWithGracePeriod terminated cl cfg.Name with
  | (.error e, cl1, tr1) => (some (.error (KErr.wrap .deletingPod e)), cl1, tr1)
  | (.ok _, cl1, tr1) =>
    match waitForPodDeletion terminated cl1 cfg.Name fuel with
    | (none, tr2) => (none, cl1, tr1 ++ tr2)
    | (some (.error e), tr2) =>
      (some (.error (KErr.wrap (.waitingForPodDeletion cfg.Name) e)), cl1, tr1 ++ tr2)
    | (some (.ok _), tr2) =>
      match deployPod terminated cl1 cfg false with
      | (.error e, cl2, tr3) =>
        (some (.error (KErr.wrap .deployingPod e)), cl2, tr1 ++ (tr2 ++ tr3))
      | (.ok pod, cl2, tr3) => (some (.ok pod), cl2, tr1 ++ (tr2 ++ tr3))

/-- pod.go `RunCommandInPod` lines 217-234: classification of an established
exec stream.  `streamErr` is the transport result of `StreamWithContext`
(`none` is a clean zero-exit close; `some` covers transport failure and a
nonzero exit reported by the transport); `stdout`/`stderr` are the captured
buffers. -/
def classifyExec (streamErr : Option String) (stdout stderr : String) :
    Except KErr String :=
  match streamErr with
  | some msg => .error (KErr.wrap (.executingCommand stdout stderr) (.transport msg))
  | none =>
    if stderr.length ≠ 0 then .error (.commandExecution stdout stderr)
    else .ok stdout

/-- pod.go `RunCommandInPod`: validation, pod lookup, then the exec stream
whose behavior (transport result and captured buffers) is a parameter. -/
def runCommandInPod (terminated : Bool) (cl : Cluster) (podName containerName : String)
    (cmd : List String) (streamErr : Option String) (stdout stderr : String) :
    Except KErr String × List Ev :=
  if ¬ validatePodName podName then (.error (.invalidPodName podName), [])
  else if ¬ validateContainerName containerName then
    (.error (.invalidContainerName containerName), [])
  else if ¬ validateCommand cmd then (.error .emptyCommand, [])
  else
    match getPodOp terminated cl podName with
    | (.error e, tr) => (.error (KErr.wrap (.gettingPod podName) e), tr)
    | (.ok _, tr) =>
      (classifyExec streamErr stdout stderr, tr ++ [.execStream podName containerName])

/-- The three outcomes raced by the `select` in `PortForwardPod` lines
332-344: the ready channel, the error channel, or the `waitRetry * 2`
timeout. -/
inductive RaceOutcome where
  | ready
  | errSignal (msg : String)
  | timeout
deriving DecidableEq

/-- The `select` of `PortForwardPod`: ready yields success, an error signal is
wrapped as a forwarding error, the timeout yields the timeout-specific
error. -/
def portForwardRace : RaceOutcome → Except KErr Unit
  | .ready => .ok ()
  | .errSignal msg => .error (KErr.wrap .forwardingPorts (.transport msg))
  | .timeout => .error .portForwardingTimeout

/-- The timeout bound of the readiness race (`time.After(waitRetry * 2)`);
the base retry wait `waitRetry` is a constant defined outside src/. -/
def portForwardTimeoutBound (waitRetry : Nat) : Nat := waitRetry * 2

/-- pod.go `PortForwardPod`: validation, pod lookup, forwarder setup, then the
three-way readiness race whose outcome is a parameter. -/
def portForwardPod (terminated : Bool) (cl : Cluster) (podName : String)
    (localPort remotePort : Int) (outcome : RaceOutcome) :
    Except KErr Unit × List Ev :=
  if ¬ validatePodName podName then (.error (.invalidPodName podName), [])
  else if ¬ validatePort localPort then (.error (.invalidPort localPort), [])
  else if ¬ validatePort remotePort then (.error (.invalidPort remotePort), [])
  else
    match getPodOp terminated cl podName with
    | (.error e, tr) => (.error (KErr.wrap (.gettingPod podName) e), tr)
    | (.ok _, tr) => (portForwardRace outcome, tr ++ [.portForwardStream podName])

/-! ### C4: exec-session classification -/

/-- C4: an established exec stream with a clean transport exit and empty
captured standard error succeeds with the captured stdout; non-empty standard
error is a failure even on a clean transport exit; a transport-level failure
is an execution error carrying both captured buffers. -/
theorem C4_exec_classification (streamErr : Option String) (stdout stderr : String) :
    (streamErr = none → stderr = "" → classifyExec streamErr stdout stderr = .ok stdout)
    ∧ (streamErr = none → stderr ≠ "" →
        classifyExec streamErr stdout stderr = .error (.commandExecution stdout stderr))
    ∧ ∀ msg, classifyExec (some msg) stdout stderr
        = .error (KErr.wrap (.executingCommand stdout stderr) (.transport msg)) := by
  refine ⟨?_, ?_, fun msg => rfl⟩
  · rintro rfl rfl
    rfl
  · rintro rfl hne
    have hlen : stderr.length ≠ 0 := fun h0 =>
      hne (String.ext (List.eq_nil_of_length_eq_zero h0))
    simp [classifyExec, hlen]

theorem C4_exec_classification_witness :
    classifyExec none "ok-output" "" = .ok "ok-output"
    ∧ classifyExec none "half" "oops" = .error (.commandExecution "half" "oops")
    ∧ classifyExec (some "broken pipe") "out" "err"
        = .error (KErr.wrap (.executingCommand "out" "err") (.transport "broken pipe")) :=
  ⟨(C4_exec_classification none "ok-output" "").1 rfl rfl,
   (C4_exec_classification none "half" "oops").2.1 rfl (by decide),
   (C4_exec_classification (some "broken pipe") "out" "err").2.2 "broken pipe"⟩

/-! ### C5: IsRunning classification -/

/-- C5: when the pod is fetched, IsPodRunning returns exactly the conjunction
of the reported container readiness flags (so false, without an error, as
soon as one container status is not ready); when the fetch fails — including
not-found — the error is surfaced rather than coerced to false. -/
theorem C5_is_running (cl : Cluster) (name : String) (pod : Pod) :
    (clusterGet cl name = some pod →
      (isPodRunning false cl name).1
        = .ok (pod.Status.ContainerStatuses.all fun cs => cs.Ready))
    ∧ (clusterGet cl name = some pod →
        (∃ cs ∈ pod.Status.ContainerStatuses, cs.Ready = false) →
        (isPodRunning false cl name).1 = .ok false)
    ∧ (clusterGet cl name = none →
        (isPodRunning false cl name).1
          = .error (KErr.wrap (.gettingPod name) .notFound)) := by
  refine ⟨?_, ?_, ?_⟩
  · intro hget
    simp [isPodRunning, getPodOp, hget]
  · intro hget ⟨cs, hcs, hready⟩
    have hall : (pod.Status.ContainerStatuses.all fun s => s.Ready) = false := by
      cases hb : pod.Status.ContainerStatuses.all fun s => s.Ready
      · rfl
      · exact absurd (List.all_eq_true.mp hb cs hcs) (by simp [hready])
    simp [isPodRunning, getPodOp, hget, hall]
  · intro hget
    simp [isPodRunning, getPodOp, hget]

theorem C5_is_running_witness :
    ((isPodRunning false
        [("web", ⟨"default", "web", ⟨[], []⟩, ⟨[⟨true⟩, ⟨false⟩]⟩⟩)] "web").1 = .ok false)
    ∧ ((isPodRunning false [] "gone").1
        = .error (KErr.wrap (.gettingPod "gone") .notFound)) :=
  ⟨(C5_is_running [("web", ⟨"default", "web", ⟨[], []⟩, ⟨[⟨true⟩, ⟨false⟩]⟩⟩)] "web"
      ⟨"default", "web", ⟨[], []⟩, ⟨[⟨true⟩, ⟨false⟩]⟩⟩).2.1 rfl ⟨⟨false⟩, by decide, rfl⟩,
   (C5_is_running [] "gone" ⟨"", "", ⟨[], []⟩, ⟨[]⟩⟩).2.2 rfl⟩

/-! ### C6: Replace ordering, for existing and absent workloads -/

theorem clusterGet_remove (cl : Cluster) (name : String) :
    clusterGet (clusterRemove cl name) name = none := by
  induction cl with
  | nil => rfl
  | cons e rest ih =>
    simp only [clusterGet, clusterRemove] at ih ⊢
    rw [List.filter_cons]
    by_cases he : e.1 = name
    · rw [if_neg (by simp [he])]
      exact ih
    · rw [if_pos (by simp [he]), List.find?_cons_of_neg _ (by simp [he])]
      exact ih

/-- C6: Replace first deletes any existing workload of the same name, then
polls by name treating not-found as success, then redeploys: when a workload
exists, the trace is the existence check, the platform delete, the
await-absence poll (whose first tick sees not-found) and only then the
create, with the old entry removed and the fresh pod deployed; against a
non-existent workload the call still succeeds, the delete phase issues only
the existence check (absence is not an error, no platform delete call) and
the await-absence phase short-circuits on its first poll before the
redeploy. -/
theorem C6_replace_ordering (cl : Cluster) (cfg : PodConfig) (fuel : Nat)
    (hval : validatePodConfig cfg = true) :
    (clusterGet cl cfg.Name = none →
      (replacePodWithGracePeriod false cl cfg (fuel + 1)).1
          = some (.ok (preparePod cfg false))
      ∧ (replacePodWithGracePeriod false cl cfg (fuel + 1)).2.2
          = [.getPod cfg.Name, .getPod cfg.Name, .createPod cfg.Name]
      ∧ Ev.deletePod cfg.Name ∉ (replacePodWithGracePeriod false cl cfg (fuel + 1)).2.2)
    ∧ ∀ pod : Pod, clusterGet cl cfg.Name = some pod →
      (replacePodWithGracePeriod false cl cfg (fuel + 1)).1
          = some (.ok (preparePod cfg false))
      ∧ (replacePodWithGracePeriod false cl cfg (fuel + 1)).2.1
          = (cfg.Name, preparePod cfg false) :: clusterRemove cl cfg.Name
      ∧ (replacePodWithGracePeriod false cl cfg (fuel + 1)).2.2
          = [.getPod cfg.Name, .deletePod cfg.Name, .getPod cfg.Name,
              .createPod cfg.Name] := by
  constructor
  · intro habs
    have h1 : deletePodWithGracePeriod false cl cfg.Name
        = (.ok (), cl, [.getPod cfg.Name]) := by
      simp [deletePodWithGracePeriod, getPodOp, habs]
    have h2 : waitForPodDeletion false cl cfg.Name (fuel + 1)
        = (some (.ok ()), [.getPod cfg.Name]) := by
      simp [waitForPodDeletion, getPodOp, habs]
    have h3 : deployPod false cl cfg false
        = (.ok (preparePod cfg false), (cfg.Name, preparePod cfg false) :: cl,
            [.createPod cfg.Name]) := by
      simp [deployPod, hval, habs]
    refine ⟨?_, ?_, ?_⟩ <;> simp [replacePodWithGracePeriod, h1, h2, h3]
  · intro pod hget
    have habs1 : clusterGet (clusterRemove cl cfg.Name) cfg.Name = none :=
      clusterGet_remove cl cfg.Name
    have h1 : deletePodWithGracePeriod false cl cfg.Name
        = (.ok (), clusterRemove cl cfg.Name, [.getPod cfg.Name, .deletePod cfg.Name]) := by
      simp [deletePodWithGracePeriod, getPodOp, hget]
    have h2 : waitForPodDeletion false (clusterRemove cl cfg.Name) cfg.Name (fuel + 1)
        = (some (.ok ()), [.getPod cfg.Name]) := by
      simp [waitForPodDeletion, getPodOp, habs1]
    have h3 : deployPod false (clusterRemove cl cfg.Name) cfg false
        = (.ok (preparePod cfg false),
            (cfg.Name, preparePod cfg false) :: clusterRemove cl cfg.Name,
            [.createPod cfg.Name]) := by
      simp [deployPod, hval, habs1]
    refine ⟨?_, ?_, ?_⟩ <;> simp [replacePodWithGracePeriod, h1, h2, h3]

theorem C6_replace_ordering_witness :
    ((replacePodWithGracePeriod false []
        ⟨"default", "web", ⟨"main", "nginx", [], [], []⟩, []⟩ 1).1
      = some (.ok (preparePod ⟨"default", "web", ⟨"main", "nginx", [], [], []⟩, []⟩ false))
    ∧ (replacePodWithGracePeriod false []
        ⟨"default", "web", ⟨"main", "nginx", [], [], []⟩, []⟩ 1).2.2
      = [.getPod "web", .getPod "web", .createPod "web"]
    ∧ Ev.deletePod "web" ∉ (replacePodWithGracePeriod false []
        ⟨"default", "web", ⟨"main", "nginx", [], [], []⟩, []⟩ 1).2.2)
    ∧ ((replacePodWithGracePeriod false [("web", ⟨"default", "web", ⟨[], []⟩, ⟨[]⟩⟩)]
        ⟨"default", "web", ⟨"main", "nginx", [], [], []⟩, []⟩ 1).1
      = some (.ok (preparePod ⟨"default", "web", ⟨"main", "nginx", [], [], []⟩, []⟩ false))
    ∧ (replacePodWithGracePeriod false [("web", ⟨"default", "web", ⟨[], []⟩, ⟨[]⟩⟩)]
        ⟨"default", "web", ⟨"main", "nginx", [], [], []⟩, []⟩ 1).2.1
      = ("web", preparePod ⟨"default", "web", ⟨"main", "nginx", [], [], []⟩, []⟩ false)
          :: clusterRemove [("web", ⟨"default", "web", ⟨[], []⟩, ⟨[]⟩⟩)] "web"
    ∧ (replacePodWithGracePeriod false [("web", ⟨"default", "web", ⟨[], []⟩, ⟨[]⟩⟩)]
        ⟨"default", "web", ⟨"main", "nginx", [], [], []⟩, []⟩ 1).2.2
      = [.getPod "web", .deletePod "web", .getPod "web", .createPod "web"]) :=
  ⟨(C6_replace_ordering [] ⟨"default", "web", ⟨"main", "nginx", [], [], []⟩, []⟩ 0
      (by decide)).1 rfl,
   (C6_replace_ordering [("web", ⟨"default", "web", ⟨[], []⟩, ⟨[]⟩⟩)]
      ⟨"default", "web", ⟨"main", "nginx", [], [], []⟩, []⟩ 0 (by decide)).2
    ⟨"default", "web", ⟨[], []⟩, ⟨[]⟩⟩ rfl⟩

/-! ### C7: the port-forward readiness race -/

/-- C7: once validation passes and the forwarder is established, the call
returns exactly the race result over the three possible outcomes — success on
ready, a wrapped forwarding error on the error signal, the timeout-specific
error on the `waitRetry * 2` timeout — and the timeout error is distinct from
both the transport-failure error and the cancellation error. -/
theorem C7_port_forward_race (cl : Cluster) (podName : String) (lp rp : Int)
    (o : RaceOutcome) (pod : Pod)
    (h1 : validatePodName podName = true) (h2 : validatePort lp = true)
    (h3 : validatePort rp = true) (h4 : clusterGet cl podName = some pod) :
    (portForwardPod false cl podName lp rp o).1 = portForwardRace o
    ∧ portForwardRace .ready = .ok ()
    ∧ (∀ msg, portForwardRace (.errSignal msg)
        = .error (KErr.wrap .forwardingPorts (.transport msg)))
    ∧ portForwardRace .timeout = .error .portForwardingTimeout
    ∧ (∀ msg, (KErr.portForwardingTimeout : KErr)
        ≠ KErr.wrap .forwardingPorts (.transport msg))
    ∧ (KErr.portForwardingTimeout : KErr) ≠ KErr.contextCanceled
    ∧ ∀ w : Nat, portForwardTimeoutBound w = 2 * w := by
  refine ⟨?_, rfl, fun msg => rfl, rfl, fun msg h => KErr.noConfusion h,
    fun h => KErr.noConfusion h, fun w => ?_⟩
  · simp [portForwardPod, h1, h2, h3, getPodOp, h4]
  · unfold portForwardTimeoutBound
    omega

theorem C7_port_forward_race_witness :
    (portForwardPod false [("web", ⟨"default", "web", ⟨[], []⟩, ⟨[]⟩⟩)]
        "web" 8080 80 .timeout).1 = portForwardRace .timeout
    ∧ portForwardRace .ready = .ok ()
    ∧ (∀ msg, portForwardRace (.errSignal msg)
        = .error (KErr.wrap .forwardingPorts (.transport msg)))
    ∧ portForwardRace .timeout = .error .portForwardingTimeout
    ∧ (∀ msg, (KErr.portForwardingTimeout : KErr)
        ≠ KErr.wrap .forwardingPorts (.transport msg))
    ∧ (KErr.portForwardingTimeout : KErr) ≠ KErr.contextCanceled
    ∧ ∀ w : Nat, portForwardTimeoutBound w = 2 * w :=
  C7_port_forward_race [("web", ⟨"default", "web", ⟨[], []⟩, ⟨[]⟩⟩)] "web" 8080 80
    .timeout ⟨"default", "web", ⟨[], []⟩, ⟨[]⟩⟩ (by decide) (by decide) (by decide) rfl

/-! ### C8: the stop signal and the forwarding goroutine

pod.go line 302 creates `stopChan` and passes it to the forwarder, but no
statement in `PortForwardPod` ever sends on or closes it; the function only
consumes the winning branch of the readiness race and returns.  The channel
operations of each branch are listed below, and the fate of the forwarding
goroutine is modelled from the spec. -/

/-- A channel operation available to `PortForwardPod` after the forwarding
goroutine is started (pod.go lines 323-346). -/
inductive ChanOp where
  | recvReady
  | recvErr
  | timeoutFire
  | sendStop
  | closeStop
deriving DecidableEq

/-- The channel operations `PortForwardPod` performs on each branch of the
readiness race, from the `select` and the code that follows it: exactly the
winning signal is consumed, then the function returns — on no branch is the
stop channel signalled or closed. -/
def callerChanOps : RaceOutcome → List ChanOp
  | .ready => [.recvReady]
  | .errSignal _ => [.recvErr]
  | .timeout => [.timeoutFire]

/-- The terminal state of the forwarding goroutine. -/
inductive GoroutineFate where
  | runningForever
  | blockedOnErrChan
  | finished
deriving DecidableEq

/-- Modelled from the spec: the forwarding loop (client-go `ForwardPorts`, an
external collaborator) runs until an external stop signal or an internal
error; on error the goroutine sends on the unbuffered error channel, which
blocks until some receiver consumes it (pod.go lines 323-329). -/
def forwarderFate (stopSignaled forwardErr errConsumed : Bool) : GoroutineFate :=
  if forwardErr then
    if errConsumed then .finished else .blockedOnErrChan
  else
    if stopSignaled then .finished else .runningForever

/-- C8 (evidence of the violation): no branch of `PortForwardPod` ever sends
on or closes the stop channel, and on the timeout branch the error channel is
never received either; hence once the caller has returned on the timeout
branch the forwarding goroutine either runs forever or, if the forward loop
fails, stays blocked forever on the unbuffered error-channel send. -/
theorem C8_stop_never_signaled :
    (∀ o : RaceOutcome,
        ChanOp.sendStop ∉ callerChanOps o ∧ ChanOp.closeStop ∉ callerChanOps o)
    ∧ callerChanOps .timeout = [ChanOp.timeoutFire]
    ∧ ChanOp.recvErr ∉ callerChanOps .timeout
    ∧ forwarderFate false true false = .blockedOnErrChan
    ∧ forwarderFate false false false = .runningForever := by
  refine ⟨?_, rfl, by decide, rfl, rfl⟩
  intro o
  cases o <;> simp [callerChanOps]

/-! ### C9: the process-termination guard -/

/-- C9: once the client is marked terminated, deploy, replace, delete,
is-running, exec and port-forward all fail without issuing a single remote
call (the trace is empty), and the error they fail with carries the
terminated-client error (deploy and delete return it bare; the others wrap it
in their operation's error). -/
theorem C9_terminated_guard (cl : Cluster) (cfg : PodConfig) (init : Bool) (fuel : Nat)
    (name podName containerName : String) (cmd : List String)
    (streamErr : Option String) (stdout stderr : String)
    (lp rp : Int) (o : RaceOutcome)
    (hpn : validatePodName podName = true)
    (hcn : validateContainerName containerName = true)
    (hcmd : validateCommand cmd = true)
    (hlp : validatePort lp = true) (hrp : validatePort rp = true) :
    deployPod true cl cfg init = (.error .clientTerminated, cl, [])
    ∧ replacePodWithGracePeriod true cl cfg fuel
        = (some (.error (.wrap .deletingPod .clientTerminated)), cl, [])
    ∧ deletePodWithGracePeriod true cl name = (.error .clientTerminated, cl, [])
    ∧ isPodRunning true cl name
        = (.error (.wrap (.gettingPod name) .clientTerminated), [])
    ∧ runCommandInPod true cl podName containerName cmd streamErr stdout stderr
        = (.error (.wrap (.gettingPod podName) .clientTerminated), [])
    ∧ portForwardPod true cl podName lp rp o
        = (.error (.wrap (.gettingPod podName) .clientTerminated), [])
    ∧ (KErr.wrap .deletingPod .clientTerminated).containsTerminated = true
    ∧ (KErr.wrap (.gettingPod name) .clientTerminated).containsTerminated = true := by
  refine ⟨rfl, ?_, rfl, rfl, ?_, ?_, rfl, ?_⟩
  · simp [replacePodWithGracePeriod, deletePodWithGracePeriod, getPodOp]
  · simp [runCommandInPod, hpn, hcn, hcmd, getPodOp]
  · simp [portForwardPod, hpn, hlp, hrp, getPodOp]
  · simp [KErr.containsTerminated]

theorem C9_terminated_guard_witness :
    deployPod true [] ⟨"default", "web", ⟨"main", "nginx", [], [], []⟩, []⟩ true
        = (.error .clientTerminated, [], [])
    ∧ replacePodWithGracePeriod true [] ⟨"default", "web", ⟨"main", "nginx", [], [], []⟩, []⟩ 3
        = (some (.error (.wrap .deletingPod .clientTerminated)), [], [])
    ∧ deletePodWithGracePeriod true [] "web" = (.error .clientTerminated, [], [])
    ∧ isPodRunning true [] "web"
        = (.error (.wrap (.gettingPod "web") .clientTerminated), [])
    ∧ runCommandInPod true [] "web" "main" ["ls"] none "" ""
        = (.error (.wrap (.gettingPod "web") .clientTerminated), [])
    ∧ portForwardPod true [] "web" 8080 80 .ready
        = (.error (.wrap (.gettingPod "web") .clientTerminated), [])
    ∧ (KErr.wrap .deletingPod .clientTerminated).containsTerminated = true
    ∧ (KErr.wrap (.gettingPod "web") .clientTerminated).containsTerminated = true :=
  C9_terminated_guard [] ⟨"default", "web", ⟨"main", "nginx", [], [], []⟩, []⟩ true 3
    "web" "web" "main" ["ls"] none "" "" 8080 80 .ready
    (by decide) (by decide) (by decide) (by decide) (by decide)

/-! ### C10: Replace always redeploys without the seeding stage -/

theorem deployPod_ok_eq (terminated : Bool) (cl : Cluster) (cfg : PodConfig)
    (init : Bool) (pod : Pod)
    (h : (deployPod terminated cl cfg init).1 = .ok pod) :
    pod = preparePod cfg init := by
  unfold deployPod at h
  split at h
  · simp at h
  · split at h
    · simp at h
    · split at h
      · simp at h
      · exact (Except.ok.inj h).symm

/-- C10: whenever ReplacePodWithGracePeriod returns a pod, that pod was built
with the seeding flag hard-coded to false, so it has no init containers even
if the config declares volumes. -/
theorem C10_replace_no_seeding (terminated : Bool) (cl : Cluster) (cfg : PodConfig)
    (fuel : Nat) (pod : Pod)
    (h : (replacePodWithGracePeriod terminated cl cfg fuel).1 = some (.ok pod)) :
    pod.Spec.InitContainers = [] := by
  unfold replacePodWithGracePeriod at h
  split at h
  · simp at h
  · split at h
    · simp at h
    · simp at h
    · rename_i hdeploy
      split at h
      · simp at h
      · rename_i pod2 cl2 tr3 hdep
        have hp : pod2 = pod := by simpa using h
        subst hp
        have := deployPod_ok_eq terminated _ cfg false pod2 (by rw [hdep])
        subst this
        simp [preparePod, preparePodSpec, prepareInitContainers]

theorem C10_replace_no_seeding_witness :
    (preparePod ⟨"default", "web", ⟨"main", "nginx", [], [⟨"/data", 1, 0⟩], []⟩, []⟩
        false).Spec.InitContainers = [] :=
  C10_replace_no_seeding false [] ⟨"default", "web", ⟨"main", "nginx", [], [⟨"/data", 1, 0⟩], []⟩, []⟩ 1
    (preparePod ⟨"default", "web", ⟨"main", "nginx", [], [⟨"/data", 1, 0⟩], []⟩, []⟩ false)
    rfl
